import Mathlib

/-!
Shallow embedding of the client-side sampling engine in
`reverb/cc/sampler.cc` (namespace `deepmind::reverb`), together with
theorems settling the specification claims about it.

Modelling conventions:
* Machine integers (`int64_t`, `uint64_t`, `int`) are modelled as `Nat`/`Int`;
  no computation in the embedded code can overflow in any reachable execution,
  so no wrap-around is modelled.
* `double` values (`probability`, `priority`) are carried as uninterpreted
  bit patterns (`Nat`): the sampler never computes with them, it only copies
  them into output tensors.
* `tensorflow::Tensor` is modelled as a dense row-major tensor: a shape plus
  the flattened list of scalar values.
* External tensor primitives (decompress-from-proto, delta-decode) are
  identities in the model: stream responses carry already-decoded tensors.
* `absl::Status` is the inductive `CStatus`; diagnostic message strings are
  replaced by structured payloads carrying the values interpolated into them.
* `REVERB_CHECK` failures and C++ undefined behaviour (out-of-bounds vector
  access, null-pointer dereference) are modelled as `Option.none` at the
  function that would crash.
* Functions whose code lives outside `sampler.cc` (the `internal::` trajectory
  helpers and `internal::Queue`) are modelled from the spec; each carries a
  doc comment saying so.
-/

set_option maxHeartbeats 1000000

deriving instance DecidableEq for Except

namespace Reverb

/-- Scalar values stored in tensors. Doubles are carried as uninterpreted
bit patterns, since the sampler never computes with them. -/
inductive TVal where
  | u64 (v : Nat)
  | i64 (v : Int)
  | f64 (bits : Nat)
deriving DecidableEq

/-- Tensor dtypes used by the sampler metadata and data columns. -/
inductive DType where
  | u64
  | i64
  | f64
deriving DecidableEq

def TVal.dtype : TVal → DType
  | .u64 _ => .u64
  | .i64 _ => .i64
  | .f64 _ => .f64

/-- Structured payload of `absl::InvalidArgumentError` messages produced by
the sampler (the values that the C++ interpolates into the message). -/
inductive ArgDetail where
  | countMismatch (spec got : Nat)
  | scalarShape (i : Nat)
  | incompatible (i : Nat)
  | notDecomposable
  | emptyConcat
  | concatRank
deriving DecidableEq

/-- Structured payload of `absl::InternalError` messages produced by the
sampler. -/
inductive IntDetail where
  | missingChunk (chunkKey itemKey : Nat)
  | batchSizeMismatch
  | producedMismatch
  | squeezeNonUnit (batchDim : Nat)
  | unpackFailed
deriving DecidableEq

/-- `absl::Status`. `unknownErr` stands for any other error code a server or
table could return over the stream. -/
inductive CStatus where
  | ok
  | cancelled
  | outOfRange
  | unavailable
  | deadlineExceeded
  | dataLoss
  | failedPrecondition
  | invalidArgument (d : ArgDetail)
  | internalError (d : IntDetail)
  | unknownErr (code : Nat)
deriving DecidableEq

/-- `status.ok()`. -/
def CStatus.isOk : CStatus → Bool
  | .ok => true
  | _ => false

/-- A dense `tensorflow::Tensor` in row-major order: `dims` is the shape and
`vals` the flattened contents (`vals.length = dims.prod` for well-formed
tensors). -/
structure Tensor where
  dims : List Nat
  vals : List TVal
deriving DecidableEq

/-- `tensor.dim_size(0)`. A scalar has no dimension 0; the C++ call would be
invalid on it, the model returns 0. -/
def Tensor.dim0 (t : Tensor) : Nat := t.dims.headD 0

/-- Number of scalar values in one slice along dimension 0. -/
def Tensor.innerSize (t : Tensor) : Nat := t.dims.tail.prod

/-- `tensor.SubSlice(i)`: the `i`-th slice along dimension 0, with that
dimension dropped. -/
def Tensor.subSlice (t : Tensor) (i : Nat) : Tensor :=
  ⟨t.dims.tail, (t.vals.drop (i * t.innerSize)).take t.innerSize⟩

/-- `tensor.Slice(a, b)`: rows `[a, b)` along dimension 0. TensorFlow requires
`0 ≤ a ≤ b ≤ dim0`; the model clamps out-of-range bounds. -/
def Tensor.tslice (t : Tensor) (a b : Int) : Tensor :=
  let lo := a.toNat
  let hi := min b.toNat t.dim0
  ⟨(hi - lo) :: t.dims.tail, (t.vals.drop (lo * t.innerSize)).take ((hi - lo) * t.innerSize)⟩

/-- Dtype of a tensor (dtype of its scalars; an empty tensor's dtype is not
recoverable in this representation and defaults to `u64`). -/
def Tensor.dtypeOf (t : Tensor) : DType := (t.vals.headD (.u64 0)).dtype

/-- `InitializeTensor(value, length)` (sampler.cc): a rank-1 tensor of the
given length filled with `value`. -/
def initializeTensor (v : TVal) (length : Nat) : Tensor :=
  ⟨[length], List.replicate length v⟩

/-- `tensorflow::tensor::Concat` restricted to the checks the sampler can
observe: concatenation along dimension 0, failing on an empty list or a
rank-0 input. (Dtype or inner-shape mismatches between chunks of one column
cannot arise from a well-formed table and are not modelled.) -/
def Tensor.concatList : List Tensor → Except CStatus Tensor
  | [] => .error (.invalidArgument .emptyConcat)
  | t0 :: ts =>
    if (t0 :: ts).all (fun t => !t.dims.isEmpty) then
      .ok ⟨((t0 :: ts).map Tensor.dim0).sum :: t0.dims.tail,
           ((t0 :: ts).map Tensor.vals).flatten⟩
    else .error (.invalidArgument .concatRank)

/-! ## Wire protocol model (`SampleStreamResponse` and friends) -/

/-- One `chunk_slices` entry of a flat-trajectory column:
`{chunk_key, offset, length, index}` where `index` is the column inside the
referenced chunk. -/
structure ChunkSlice where
  chunk_key : Nat
  offset : Nat
  length : Nat
  index : Nat
deriving DecidableEq

/-- One column of a `FlatTrajectory`. -/
structure TrajectoryColumn where
  chunk_slices : List ChunkSlice
  squeeze : Bool
deriving DecidableEq

/-- `FlatTrajectory`: the per-item schema. -/
structure FlatTrajectory where
  columns : List TrajectoryColumn
deriving DecidableEq

/-- `PrioritizedItem` fields the sampler reads. `priority` is a double,
carried as bits. -/
structure PrioritizedItem where
  key : Nat
  priority : Nat
  flat_trajectory : FlatTrajectory
deriving DecidableEq

/-- `SampleInfo` fields of a stream response. `probability` is a double,
carried as bits. -/
structure SampleInfo where
  item : PrioritizedItem
  probability : Nat
  table_size : Int
deriving DecidableEq

/-- `ChunkData`: a stored chunk. Its per-column tensors are carried already
decompressed and delta-decoded (those transforms are external primitives). -/
structure ChunkData where
  chunk_key : Nat
  tensors : List Tensor
deriving DecidableEq

/-- One `SampleStreamResponse`. Proto3 getters return a default `info` when
the field is absent, so `info` is total; `data` models `has_data()` with
`Option`. -/
structure SampleStreamResponse where
  info : SampleInfo
  data : Option ChunkData
deriving DecidableEq

/-- Modelled from the spec: `internal::GetChunkKeys(flat_trajectory)` (code
outside `sampler.cc`) returns every `chunk_key` referenced by the item's
trajectory — per column, its ordered chunk slices' keys. -/
def getChunkKeys (t : FlatTrajectory) : List Nat :=
  (t.columns.map (fun c => c.chunk_slices.map (·.chunk_key))).flatten

/-- `SampleIsDone` (sampler.cc): a non-empty response list is done when every
chunk key declared by the first response's trajectory has been received by
some data-bearing response. -/
def SampleIsDone (sample : List SampleStreamResponse) : Bool :=
  match sample with
  | [] => false
  | first :: _ =>
    let received := sample.filterMap (fun r => r.data.map (·.chunk_key))
    (getChunkKeys first.info.item.flat_trajectory).all (fun k => received.contains k)

/-- C4: `SampleIsDone` returns `false` on the empty list, and on a non-empty
list returns `true` iff every chunk key referenced by the first response's
flat trajectory appears among the chunk keys of the data-bearing responses. -/
theorem c4_sample_is_done :
    SampleIsDone [] = false ∧
    ∀ (r : SampleStreamResponse) (rs : List SampleStreamResponse),
      (SampleIsDone (r :: rs) = true ↔
        ∀ k ∈ getChunkKeys r.info.item.flat_trajectory,
          k ∈ (r :: rs).filterMap (fun x => x.data.map (·.chunk_key))) := by
  refine ⟨rfl, fun r rs => ?_⟩
  simp [SampleIsDone, List.all_eq_true, List.contains]

/-! ## `Sample` (sampler.cc, class `Sample`) -/

/-- The assembled result of one replay item. `chunks` is the deque of chunk
groups (each a vector of per-column tensors). `num_timesteps` and
`num_data_tensors` are not stored: the constructor-computed values coincide
with `Sample.numTimesteps` / `Sample.numDataTensors` below as long as
`chunks` has not been consumed, and every member that reads them is only
reachable in that state. -/
structure Sample where
  key : Nat
  probability : Nat
  table_size : Int
  priority : Nat
  chunks : List (List Tensor)
  squeeze_columns : List Bool
  next_timestep_index : Nat
  next_timestep_called : Bool
deriving DecidableEq

/-- `num_data_tensors_ = chunks_.front().size()` as computed by the
constructor. -/
def Sample.numDataTensors (s : Sample) : Nat := (s.chunks.headD []).length

/-- `num_timesteps_ += batches.front().dim_size(0)` over all groups, as
computed by the constructor (an empty group would be undefined behaviour in
the C++; the model contributes 0 for it). -/
def Sample.numTimesteps (s : Sample) : Nat :=
  (s.chunks.map (fun g => (g.headD ⟨[], []⟩).dim0)).sum

/-- The `Sample` constructor. The two `REVERB_CHECK`s (non-empty `chunks`,
non-empty first group) are modelled as `none`; no further validation is
performed by the C++ constructor. -/
def Sample.construct (key : Nat) (probability : Nat) (table_size : Int) (priority : Nat)
    (chunks : List (List Tensor)) (squeeze_columns : List Bool) : Option Sample :=
  if chunks.isEmpty then none
  else if (chunks.headD []).isEmpty then none
  else some ⟨key, probability, table_size, priority, chunks, squeeze_columns, 0, false⟩

/-- `Sample::is_end_of_sample()`. -/
def Sample.is_end_of_sample (s : Sample) : Bool := s.chunks.isEmpty

/-- Total length of column `i` across all chunk groups, as summed by
`is_composed_of_timesteps` (an index past a group's end is undefined
behaviour in the C++; the model contributes 0 for it). -/
def Sample.columnLength (s : Sample) (i : Nat) : Nat :=
  (s.chunks.map (fun g => (g.getD i ⟨[], []⟩).dim0)).sum

/-- `Sample::is_composed_of_timesteps()`: every column has the same total
length across groups. -/
def Sample.is_composed_of_timesteps (s : Sample) : Bool :=
  (List.range s.numDataTensors).all (fun i => s.columnLength i == s.columnLength 0)

/-- The chunks of data column `i`, one entry per group that has a column `i`
(the extraction loops of `AsBatchedTimesteps` / `AsTrajectory` walk each
group's own tensors in order). -/
def Sample.columnChunks (s : Sample) (i : Nat) : List Tensor :=
  s.chunks.filterMap (fun g => g[i]?)

/-- `Sample::GetNextTimestep()` (the mutation is returned as a new `Sample`):
emits `[key, probability, table_size, priority, col_0[idx], …]`, advances the
cursor, drops the head group when exhausted, and latches
`next_timestep_called`. Preconditions (`!is_end_of_sample`,
`is_composed_of_timesteps`) are `REVERB_CHECK`ed by the caller's control
flow. -/
def Sample.getNextTimestepRow (s : Sample) : List Tensor × Sample :=
  let front := s.chunks.headD []
  let row := [Tensor.mk [] [.u64 s.key], Tensor.mk [] [.f64 s.probability],
              Tensor.mk [] [.i64 s.table_size], Tensor.mk [] [.f64 s.priority]]
             ++ front.map (fun t => t.subSlice s.next_timestep_index)
  let idx := s.next_timestep_index + 1
  if idx = (front.headD ⟨[], []⟩).dim0 then
    (row, { s with chunks := s.chunks.tail, next_timestep_index := 0,
                   next_timestep_called := true })
  else
    (row, { s with next_timestep_index := idx, next_timestep_called := true })

/-- `Sample::AsBatchedTimesteps`. -/
def Sample.asBatchedTimesteps (s : Sample) : Except CStatus (List Tensor) :=
  if s.next_timestep_called then .error .dataLoss
  else if !s.is_composed_of_timesteps then .error .failedPrecondition
  else
    match (List.range s.numDataTensors).mapM
        (fun i => Tensor.concatList (s.columnChunks i)) with
    | .error e => .error e
    | .ok cols =>
      .ok ([initializeTensor (.u64 s.key) s.numTimesteps,
            initializeTensor (.f64 s.probability) s.numTimesteps,
            initializeTensor (.i64 s.table_size) s.numTimesteps,
            initializeTensor (.f64 s.priority) s.numTimesteps] ++ cols)

/-- Squeeze pass of `Sample::AsTrajectory`: for each column marked `squeeze`,
require leading dimension 1 and drop it. A `squeeze_columns` longer than the
column list would index out of bounds in the C++ (undefined behaviour); the
model ignores the excess entries. -/
def squeezeCols : List Bool → List Tensor → Except CStatus (List Tensor)
  | _, [] => .ok []
  | [], ts => .ok ts
  | b :: bs, t :: ts =>
    if b then
      if t.dim0 = 1 then
        match squeezeCols bs ts with
        | .error e => .error e
        | .ok r => .ok (t.subSlice 0 :: r)
      else .error (.internalError (.squeezeNonUnit t.dim0))
    else
      match squeezeCols bs ts with
      | .error e => .error e
      | .ok r => .ok (t :: r)

/-- `Sample::AsTrajectory`. -/
def Sample.asTrajectory (s : Sample) : Except CStatus (List Tensor) :=
  if s.next_timestep_called then .error .dataLoss
  else
    let meta := [Tensor.mk [] [.u64 s.key], Tensor.mk [] [.f64 s.probability],
                 Tensor.mk [] [.i64 s.table_size], Tensor.mk [] [.f64 s.priority]]
    let colsE : Except CStatus (List Tensor) :=
      if s.chunks.length = 1 then .ok (s.chunks.headD [])
      else (List.range s.numDataTensors).mapM
        (fun i => Tensor.concatList (s.columnChunks i))
    match colsE with
    | .error e => .error e
    | .ok cols =>
      match squeezeCols s.squeeze_columns cols with
      | .error e => .error e
      | .ok cols2 => .ok (meta ++ cols2)

/-- C5: once a timestep has been fetched from a `Sample`
(`next_timestep_called` is latched), both materialization views fail with
data-loss and produce no output tensors. -/
theorem c5_data_loss_after_iteration (s : Sample) (h : s.next_timestep_called = true) :
    s.asBatchedTimesteps = .error .dataLoss ∧ s.asTrajectory = .error .dataLoss := by
  constructor <;> simp [Sample.asBatchedTimesteps, Sample.asTrajectory, h]

/-- C5 witness: a concrete iterated `Sample` on which both views return
data-loss. -/
theorem c5_data_loss_after_iteration_witness :
    (Sample.mk 1 2 3 4 [[⟨[2], [.u64 5, .u64 6]⟩]] [false] 1 true).next_timestep_called = true ∧
    (Sample.mk 1 2 3 4 [[⟨[2], [.u64 5, .u64 6]⟩]] [false] 1 true).asBatchedTimesteps
      = .error .dataLoss ∧
    (Sample.mk 1 2 3 4 [[⟨[2], [.u64 5, .u64 6]⟩]] [false] 1 true).asTrajectory
      = .error .dataLoss :=
  ⟨rfl, c5_data_loss_after_iteration _ rfl⟩

/-- C8 counterexample: the constructor accepts a chunk sequence whose groups
have different column counts (1 column in the first group, 2 in the second) —
only non-emptiness of `chunks` and of the first group is checked. -/
theorem c8_counterexample :
    (Sample.construct 1 2 3 4
        [[⟨[1], [.u64 0]⟩], [⟨[1], [.u64 0]⟩, ⟨[1], [.u64 0]⟩]] []).map
      (fun s => s.chunks.map List.length) = some [1, 2] := by decide

/-- C8 amended: the constructor validates exactly that the chunk-group
sequence is non-empty and that the first group is non-empty; column-count
uniformity across groups is not checked. -/
theorem c8_construct_checks (key probability : Nat) (table_size : Int) (priority : Nat)
    (chunks : List (List Tensor)) (squeeze_columns : List Bool) :
    (Sample.construct key probability table_size priority chunks squeeze_columns).isSome
      = (!chunks.isEmpty && !(chunks.headD []).isEmpty) := by
  simp only [Sample.construct]
  split <;> rename_i h1
  · simp [h1]
  · split <;> rename_i h2 <;> simp_all [List.isEmpty_iff, List.headD]

theorem mapM_ok_of_forall {α β : Type} (f : α → Except CStatus β) (g : α → β)
    (l : List α) (h : ∀ a ∈ l, f a = .ok (g a)) :
    l.mapM f = Except.ok (l.map g) := by
  induction l with
  | nil => rfl
  | cons a t ih =>
    rw [List.mapM_cons, h a (List.mem_cons_self a t),
        ih (fun x hx => h x (List.mem_cons_of_mem a hx))]
    rfl

theorem concatList_ok {ts : List Tensor} (hne : ts ≠ [])
    (hrank : ∀ t ∈ ts, t.dims ≠ []) :
    Tensor.concatList ts =
      .ok ⟨(ts.map Tensor.dim0).sum :: (ts.headD ⟨[], []⟩).dims.tail,
           (ts.map Tensor.vals).flatten⟩ := by
  cases ts with
  | nil => exact absurd rfl hne
  | cons t0 rest =>
    have hall : (t0 :: rest).all (fun t => !t.dims.isEmpty) = true := by
      simp only [List.all_eq_true, Bool.not_eq_true']
      intro t ht
      simpa [List.isEmpty_iff] using hrank t ht
    simp [Tensor.concatList, hall]

theorem mem_columnChunks {s : Sample} {i : Nat} {t : Tensor}
    (h : t ∈ s.columnChunks i) : ∃ g ∈ s.chunks, t ∈ g := by
  simp only [Sample.columnChunks, List.mem_filterMap] at h
  obtain ⟨g, hg, hgi⟩ := h
  exact ⟨g, hg, List.getElem?_mem hgi⟩

theorem columnChunks_ne_nil {s : Sample} {i : Nat}
    (h0 : s.chunks ≠ []) (hi : i < s.numDataTensors)
    (hu : ∀ g ∈ s.chunks, g.length = s.numDataTensors) :
    s.columnChunks i ≠ [] := by
  cases hc : s.chunks with
  | nil => exact absurd hc h0
  | cons g0 gs =>
    have hg0 : g0.length = s.numDataTensors :=
      hu g0 (by rw [hc]; exact List.mem_cons_self g0 gs)
    have hlt : i < g0.length := by omega
    simp [Sample.columnChunks, hc, List.filterMap_cons, List.getElem?_eq_getElem hlt]

/-- C6: for a non-iterated, well-formed `Sample` (non-empty chunk sequence,
uniform column count, rank-≥1 tensors — the data-model invariants of a
delivered sample), `AsBatchedTimesteps` fails with failed-precondition
exactly when the trajectory is not timestep-decomposable, and otherwise
succeeds with the four scalar metadata values broadcast to vectors of length
`num_timesteps` followed by each data column's concatenation across chunk
groups. -/
theorem c6_as_batched_timesteps (s : Sample)
    (hcalled : s.next_timestep_called = false)
    (h0 : s.chunks ≠ [])
    (hu : ∀ g ∈ s.chunks, g.length = s.numDataTensors)
    (hrank : ∀ g ∈ s.chunks, ∀ t ∈ g, t.dims ≠ []) :
    (s.is_composed_of_timesteps = false →
      s.asBatchedTimesteps = .error .failedPrecondition) ∧
    (s.is_composed_of_timesteps = true →
      s.asBatchedTimesteps =
        .ok ([⟨[s.numTimesteps], List.replicate s.numTimesteps (.u64 s.key)⟩,
              ⟨[s.numTimesteps], List.replicate s.numTimesteps (.f64 s.probability)⟩,
              ⟨[s.numTimesteps], List.replicate s.numTimesteps (.i64 s.table_size)⟩,
              ⟨[s.numTimesteps], List.replicate s.numTimesteps (.f64 s.priority)⟩] ++
             (List.range s.numDataTensors).map (fun i =>
               ⟨((s.columnChunks i).map Tensor.dim0).sum ::
                  ((s.columnChunks i).headD ⟨[], []⟩).dims.tail,
                ((s.columnChunks i).map Tensor.vals).flatten⟩))) := by
  constructor
  · intro hdec
    simp [Sample.asBatchedTimesteps, hcalled, hdec]
  · intro hdec
    simp only [Sample.asBatchedTimesteps, hcalled, hdec, Bool.not_true,
      Bool.false_eq_true, if_false, if_neg, Bool.not_eq_true]
    rw [mapM_ok_of_forall _
      (fun i => (⟨((s.columnChunks i).map Tensor.dim0).sum ::
                  ((s.columnChunks i).headD ⟨[], []⟩).dims.tail,
                 ((s.columnChunks i).map Tensor.vals).flatten⟩ : Tensor)) _
      (fun i hi =>
        concatList_ok
          (columnChunks_ne_nil h0 (List.mem_range.mp hi) hu)
          (fun t ht => by
            obtain ⟨g, hg, htg⟩ := mem_columnChunks ht
            exact hrank g hg t htg))]
    rfl

/-- C6 witness: a concrete well-formed, decomposable sample with one group,
one data column of two timesteps. -/
theorem c6_as_batched_timesteps_witness :
    ((Sample.mk 1 2 3 4 [[⟨[2], [.u64 7, .u64 8]⟩]] [false] 0 false).asBatchedTimesteps =
      .ok [⟨[2], [.u64 1, .u64 1]⟩, ⟨[2], [.f64 2, .f64 2]⟩,
           ⟨[2], [.i64 3, .i64 3]⟩, ⟨[2], [.f64 4, .f64 4]⟩,
           ⟨[2], [.u64 7, .u64 8]⟩]) := by
  have h := (c6_as_batched_timesteps (Sample.mk 1 2 3 4 [[⟨[2], [.u64 7, .u64 8]⟩]] [false] 0 false)
    rfl (by decide) (by decide) (by decide)).2 (by decide)
  simpa using h

/-! ## Timestep-aligned materialization (`TimestepTrajectoryAsSample`) -/

/-- Modelled from the spec: `internal::TimestepTrajectoryOffset` (code outside
`sampler.cc`) — the trajectory-level front trim: the offset of the first
chunk slice of the first column. -/
def timestepTrajectoryOffset (t : FlatTrajectory) : Int :=
  match t.columns with
  | [] => 0
  | c :: _ =>
    match c.chunk_slices with
    | [] => 0
    | s :: _ => (s.offset : Int)

/-- Modelled from the spec: `internal::TimestepTrajectoryLength` (code outside
`sampler.cc`) — the declared trajectory length: the sum of the first column's
slice lengths. -/
def timestepTrajectoryLength (t : FlatTrajectory) : Int :=
  match t.columns with
  | [] => 0
  | c :: _ => ((c.chunk_slices.map (·.length)).sum : Int)

/-- Modelled from the spec: `internal::IsTimestepTrajectory` (code outside
`sampler.cc`) — all columns have identical chunk-slice structure
(keys, offsets and lengths). -/
def isTimestepTrajectory (t : FlatTrajectory) : Bool :=
  t.columns.all (fun c =>
    c.chunk_slices.map (fun s => (s.chunk_key, s.offset, s.length)) ==
      ((t.columns.headD ⟨[], false⟩).chunk_slices.map
        (fun s => (s.chunk_key, s.offset, s.length))))

/-- Batch size of a response: `dim_size(0)` of the last tensor (the first one
the C++ loop converts, via `ReleaseLast`), `-1` when the response carries no
tensors. -/
def ttBatchSize (tensors : List Tensor) : Int :=
  match tensors.getLast? with
  | some t => (t.dim0 : Int)
  | none => -1

/-- Result of the response loop of `TimestepTrajectoryAsSample`. -/
structure TTOut where
  chunks : List (List Tensor)
  offset : Int
  remaining : Int
deriving DecidableEq

/-- The response loop of `TimestepTrajectoryAsSample`: for each response,
check `REVERB_CHECK_GT(remaining, 0)` (`none` on failure), require all its
tensors to share a leading dimension (internal error otherwise), emit the
group of columns sliced to `[offset, min(offset + remaining, B))`, then
update `remaining -= min(remaining, B - offset)` and `offset = 0`; after the
last response `REVERB_CHECK_EQ(remaining, 0)` (`none` on failure). -/
def ttLoop : Int → Int → List (List Tensor) → List (List Tensor) →
    Option (Except CStatus TTOut)
  | offset, remaining, [], acc =>
    if remaining = 0 then some (.ok ⟨acc, offset, remaining⟩) else none
  | offset, remaining, tensors :: rest, acc =>
    if remaining ≤ 0 then none
    else
      let B := ttBatchSize tensors
      if tensors.all (fun t => (t.dim0 : Int) == B) then
        ttLoop 0 (remaining - min remaining (B - offset)) rest
          (acc ++ [tensors.map (fun t => t.tslice offset (min (offset + remaining) B))])
      else some (.error (.internalError .batchSizeMismatch))

/-- The emitted chunk groups as described by the amended claim: slice each
column to `[offset, min(offset + remaining, B))`, recurse with `offset ← 0`
and `remaining ← remaining − min(remaining, B − offset)`. -/
def ttChunksSpec : Int → Int → List (List Tensor) → List (List Tensor)
  | _, _, [] => []
  | offset, remaining, tensors :: rest =>
    let B := ttBatchSize tensors
    tensors.map (fun t => t.tslice offset (min (offset + remaining) B)) ::
      ttChunksSpec 0 (remaining - min remaining (B - offset)) rest

/-- Total emitted length of a list of chunk groups (leading dimension of the
first column of each group). -/
def ttEmittedLen (groups : List (List Tensor)) : Int :=
  (groups.map (fun g => ((g.headD ⟨[], []⟩).dim0 : Int))).sum

/-- C7 counterexample: one response of leading dimension 5 against
`offset = 0`, `remaining = 3`. The code trims the tail (slice `[0, 3)`) and
finishes with `remaining = 0`; the claim's update
`remaining ← remaining − (B − offset)` would give `3 − (5 − 0) = −2 ≠ 0`. -/
theorem c7_counterexample :
    ttLoop 0 3 [[⟨[5], [.u64 0, .u64 1, .u64 2, .u64 3, .u64 4]⟩]] [] =
      some (.ok ⟨[[⟨[3], [.u64 0, .u64 1, .u64 2]⟩]], 0, 0⟩) ∧
    (3 - (5 - 0) : Int) ≠ 0 := by decide

/-- C7 amended: in timestep-aligned materialization the emitted chunk groups
are exactly `ttChunksSpec` (slice each column to
`[offset, min(offset + remaining, B))`, then `offset ← 0` and
`remaining ← remaining − min(remaining, B − offset)` — the code subtracts the
`min`, not `B − offset` itself); whenever the loop completes without
crashing, the final `remaining` is 0, and if every response carries at least
one tensor and `0 ≤ offset ≤ B` initially, the total emitted length equals
the declared trajectory length `remaining`. -/
theorem c7_timestep_loop (responses : List (List Tensor)) :
    ∀ (offset remaining : Int) (acc : List (List Tensor)) (out : TTOut),
      ttLoop offset remaining responses acc = some (.ok out) →
      out.chunks = acc ++ ttChunksSpec offset remaining responses ∧
      out.remaining = 0 ∧
      ((∀ tensors ∈ responses, tensors ≠ []) → 0 ≤ offset →
        (responses = [] ∨ offset ≤ ttBatchSize (responses.headD [])) →
        ttEmittedLen (ttChunksSpec offset remaining responses) = remaining) := by
  induction responses with
  | nil =>
    intro offset remaining acc out h
    simp only [ttLoop] at h
    split at h
    · rename_i h0
      cases h
      exact ⟨by simp [ttChunksSpec], h0.symm ▸ rfl, fun _ _ _ => by
        simp [ttChunksSpec, ttEmittedLen, h0]⟩
    · cases h
  | cons tensors rest ih =>
    intro offset remaining acc out h
    simp only [ttLoop] at h
    split at h
    · cases h
    · rename_i hpos
      split at h
      · rename_i hall
        obtain ⟨hchunks, hrem, hsum⟩ :=
          ih 0 (remaining - min remaining (ttBatchSize tensors - offset))
            (acc ++ [tensors.map (fun t =>
              t.tslice offset (min (offset + remaining) (ttBatchSize tensors)))]) out h
        refine ⟨by simpa [ttChunksSpec] using hchunks, hrem, ?_⟩
        intro hne hoff hofB
        have hBnonneg : ∀ ts : List Tensor, ts ≠ [] → 0 ≤ ttBatchSize ts := by
          intro ts hts
          cases hl : ts.getLast? with
          | none => exact absurd (List.getLast?_eq_none_iff.mp hl) hts
          | some t => simp [ttBatchSize, hl]
        have hsum' := hsum (fun ts hts => hne ts (List.mem_cons_of_mem _ hts)) le_rfl
          (by
            cases rest with
            | nil => exact Or.inl rfl
            | cons r rs =>
              exact Or.inr (hBnonneg r (hne r (by simp))))
        have hB : offset ≤ ttBatchSize tensors := by
          rcases hofB with h' | h'
          · cases h'
          · simpa using h'
        have hB0 : 0 ≤ ttBatchSize tensors :=
          hBnonneg tensors (hne tensors (List.mem_cons_self _ _))
        have hne0 : tensors ≠ [] := hne tensors (List.mem_cons_self _ _)
        obtain ⟨t0, ts0, ht0⟩ := List.exists_cons_of_ne_nil hne0
        have ht0dim : ((t0.dims.headD 0 : Nat) : Int) = ttBatchSize tensors := by
          have := List.all_eq_true.mp hall t0 (by simp [ht0])
          simpa [Tensor.dim0] using this
        have hrpos : 0 < remaining := lt_of_not_le hpos
        have hcons : ttChunksSpec offset remaining (tensors :: rest) =
            (tensors.map (fun t =>
              t.tslice offset (min (offset + remaining) (ttBatchSize tensors)))) ::
              ttChunksSpec 0 (remaining - min remaining (ttBatchSize tensors - offset)) rest := rfl
        rw [hcons]
        have hlen : ∀ (g : List Tensor) (gs : List (List Tensor)),
            ttEmittedLen (g :: gs) = ((g.headD ⟨[], []⟩).dim0 : Int) + ttEmittedLen gs := by
          intro g gs; simp [ttEmittedLen]
        rw [hlen, hsum']
        set B := ttBatchSize tensors with hBdef
        rw [ht0]
        simp only [List.map_cons, List.headD_cons, Tensor.tslice, Tensor.dim0, List.headD_cons]
        omega
      · cases h

/-- C7 witness: one response of leading dimension 4 against `offset = 1`,
`remaining = 3` — both hypotheses of the amended theorem hold, the loop
succeeds and emits exactly 3 rows. -/
theorem c7_timestep_loop_witness :
    ttLoop 1 3 [[⟨[4], [.u64 0, .u64 1, .u64 2, .u64 3]⟩]] [] =
      some (.ok ⟨[[⟨[3], [.u64 1, .u64 2, .u64 3]⟩]], 0, 0⟩) ∧
    ttEmittedLen (ttChunksSpec 1 3 [[⟨[4], [.u64 0, .u64 1, .u64 2, .u64 3]⟩]]) = 3 :=
  ⟨by decide,
   (c7_timestep_loop [[⟨[4], [.u64 0, .u64 1, .u64 2, .u64 3]⟩]] 1 3 []
      ⟨[[⟨[3], [.u64 1, .u64 2, .u64 3]⟩]], 0, 0⟩ (by decide)).2.2
     (by decide) (by decide) (by decide)⟩

/-! ## Sample assembly from responses / sampled items (`AsSample`) -/

/-- `flat_hash_map` insertion (`map[key] = value`): replace an existing
binding or append a new one. -/
def upsertAssoc {α : Type} : List (Nat × α) → Nat → α → List (Nat × α)
  | [], k, v => [(k, v)]
  | (k0, v0) :: rest, k, v =>
    if k0 = k then (k, v) :: rest else (k0, v0) :: upsertAssoc rest k v

/-- `flat_hash_map` lookup (`map.find(key)`). -/
def lookupAssoc {α : Type} (m : List (Nat × α)) (k : Nat) : Option α :=
  (m.find? (fun p => p.1 == k)).map (·.2)

/-- The chunk map built by the general remote path:
`chunks[response.data().chunk_key()] = WrapUnique(response.release_data())`.
A data-less response contributes key 0 (the proto default) bound to a null
pointer, modelled as `none`. -/
def buildChunkMap (responses : List SampleStreamResponse) : List (Nat × Option ChunkData) :=
  responses.foldl
    (fun m r => upsertAssoc m ((r.data.map (·.chunk_key)).getD 0) r.data) []

/-- The chunk map built by the local path from `sampled_item.chunks`. -/
def buildChunkMapLocal (chunks : List ChunkData) : List (Nat × ChunkData) :=
  chunks.foldl (fun m c => upsertAssoc m c.chunk_key c) []

/-- Modelled from the spec: `internal::UnpackChunkColumnAndSlice` (code
outside `sampler.cc`) — unpack one `(chunk, slice)` into a tensor: take
column `slice.index` of the chunk and slice rows
`[slice.offset, slice.offset + slice.length)`. -/
def unpackChunkColumnAndSlice (cd : ChunkData) (sl : ChunkSlice) : Except CStatus Tensor :=
  match cd.tensors[sl.index]? with
  | none => .error (.internalError .unpackFailed)
  | some t => .ok (t.tslice (sl.offset : Int) ((sl.offset : Int) + (sl.length : Int)))

/-- Per-column slice unpacking of the general remote path. A key that is not
in the map produces the internal error naming the absent chunk key and the
item key; a key bound to a null pointer (data-less response) would be
dereferenced — undefined behaviour, `none`. -/
def unpackColumnG (m : List (Nat × Option ChunkData)) (itemKey : Nat) :
    List ChunkSlice → Option (Except CStatus (List Tensor))
  | [] => some (.ok [])
  | sl :: rest =>
    match lookupAssoc m sl.chunk_key with
    | none => some (.error (.internalError (.missingChunk sl.chunk_key itemKey)))
    | some none => none
    | some (some cd) =>
      match unpackChunkColumnAndSlice cd sl with
      | .error e => some (.error e)
      | .ok t =>
        match unpackColumnG m itemKey rest with
        | none => none
        | some (.error e) => some (.error e)
        | some (.ok ts) => some (.ok (t :: ts))

/-- Column loop of the general remote path: unpack each column's slices, then
concatenate them. -/
def unpackColumnsG (m : List (Nat × Option ChunkData)) (itemKey : Nat) :
    List TrajectoryColumn → Option (Except CStatus (List Tensor))
  | [] => some (.ok [])
  | c :: rest =>
    match unpackColumnG m itemKey c.chunk_slices with
    | none => none
    | some (.error e) => some (.error e)
    | some (.ok ts) =>
      match Tensor.concatList ts with
      | .error e => some (.error e)
      | .ok col =>
        match unpackColumnsG m itemKey rest with
        | none => none
        | some (.error e) => some (.error e)
        | some (.ok cols) => some (.ok (col :: cols))

/-- General-trajectory branch of
`AsSample(std::vector<SampleStreamResponse>, …)` (sampler.cc): index the
responses by chunk key, unpack and concatenate each declared column, and
construct a single-group `Sample`. `front()` on an empty response list is
undefined behaviour (`none`). -/
def asSampleGeneral (responses : List SampleStreamResponse) :
    Option (Except CStatus Sample) :=
  match responses.head? with
  | none => none
  | some first =>
    let m := buildChunkMap responses
    match unpackColumnsG m first.info.item.key
        first.info.item.flat_trajectory.columns with
    | none => none
    | some (.error e) => some (.error e)
    | some (.ok cols) =>
      match Sample.construct first.info.item.key first.info.probability
          first.info.table_size first.info.item.priority [cols]
          (first.info.item.flat_trajectory.columns.map (·.squeeze)) with
      | none => none
      | some s => some (.ok s)

/-- `TimestepTrajectoryAsSample` (sampler.cc): run the response loop from the
trajectory-level offset and length, then construct the `Sample`. `front()`
on an empty response list is undefined behaviour (`none`). -/
def timestepTrajectoryAsSample (responses : List SampleStreamResponse) :
    Option (Except CStatus Sample) :=
  match responses.head? with
  | none => none
  | some first =>
    let traj := first.info.item.flat_trajectory
    match ttLoop (timestepTrajectoryOffset traj) (timestepTrajectoryLength traj)
        (responses.map (fun r => (r.data.map (·.tensors)).getD [])) [] with
    | none => none
    | some (.error e) => some (.error e)
    | some (.ok res) =>
      match Sample.construct first.info.item.key first.info.probability
          first.info.table_size first.info.item.priority res.chunks
          (traj.columns.map (·.squeeze)) with
      | none => none
      | some s => some (.ok s)

/-- `AsSample(std::vector<SampleStreamResponse>, …)` (sampler.cc): dispatch
between the timestep-aligned and the general path. -/
def asSampleRemote (responses : List SampleStreamResponse) :
    Option (Except CStatus Sample) :=
  match responses.head? with
  | none => none
  | some first =>
    if isTimestepTrajectory first.info.item.flat_trajectory then
      timestepTrajectoryAsSample responses
    else asSampleGeneral responses

/-- One sampled item of the in-process table (`Table::SampledItem`). -/
structure SampledItem where
  item : PrioritizedItem
  probability : Nat
  table_size : Int
  chunks : List ChunkData
deriving DecidableEq

/-- Per-column slice unpacking of the local path
(`AsSample(const Table::SampledItem&, …)`). The C++ uses
`chunks[slice.chunk_key()]->data()` with **no missing-key check**: a missing
key default-constructs a null `shared_ptr` which is dereferenced — undefined
behaviour, `none`. -/
def unpackColumnL (m : List (Nat × ChunkData)) :
    List ChunkSlice → Option (Except CStatus (List Tensor))
  | [] => some (.ok [])
  | sl :: rest =>
    match lookupAssoc m sl.chunk_key with
    | none => none
    | some cd =>
      match unpackChunkColumnAndSlice cd sl with
      | .error e => some (.error e)
      | .ok t =>
        match unpackColumnL m rest with
        | none => none
        | some (.error e) => some (.error e)
        | some (.ok ts) => some (.ok (t :: ts))

/-- Column loop of the local path. -/
def unpackColumnsL (m : List (Nat × ChunkData)) :
    List TrajectoryColumn → Option (Except CStatus (List Tensor))
  | [] => some (.ok [])
  | c :: rest =>
    match unpackColumnL m c.chunk_slices with
    | none => none
    | some (.error e) => some (.error e)
    | some (.ok ts) =>
      match Tensor.concatList ts with
      | .error e => some (.error e)
      | .ok col =>
        match unpackColumnsL m rest with
        | none => none
        | some (.error e) => some (.error e)
        | some (.ok cols) => some (.ok (col :: cols))

/-- `AsSample(const Table::SampledItem&, …)` (sampler.cc): the local worker's
assembly path over the table's shared chunks. -/
def asSampleLocal (si : SampledItem) : Option (Except CStatus Sample) :=
  let m := buildChunkMapLocal si.chunks
  match unpackColumnsL m si.item.flat_trajectory.columns with
  | none => none
  | some (.error e) => some (.error e)
  | some (.ok cols) =>
    match Sample.construct si.item.key si.probability si.table_size
        si.item.priority [cols] (si.item.flat_trajectory.columns.map (·.squeeze)) with
    | none => none
    | some s => some (.ok s)

/-- A slice that the general path can unpack: its key is mapped to a live
chunk and unpacking yields a rank-≥1 tensor. -/
def SliceOkG (m : List (Nat × Option ChunkData)) (sl : ChunkSlice) : Prop :=
  ∃ cd t, lookupAssoc m sl.chunk_key = some (some cd) ∧
    unpackChunkColumnAndSlice cd sl = .ok t ∧ t.dims ≠ []

/-- A slice that the local path can unpack. -/
def SliceOkL (m : List (Nat × ChunkData)) (sl : ChunkSlice) : Prop :=
  ∃ cd t, lookupAssoc m sl.chunk_key = some cd ∧
    unpackChunkColumnAndSlice cd sl = .ok t ∧ t.dims ≠ []

theorem unpackColumnG_all_ok {m : List (Nat × Option ChunkData)} {itemKey : Nat} :
    ∀ {slices : List ChunkSlice}, (∀ sl ∈ slices, SliceOkG m sl) →
      ∃ ts, unpackColumnG m itemKey slices = some (.ok ts) ∧
        ts.length = slices.length ∧ ∀ t ∈ ts, t.dims ≠ [] := by
  intro slices
  induction slices with
  | nil => exact fun _ => ⟨[], rfl, rfl, by simp⟩
  | cons sl rest ih =>
    intro h
    obtain ⟨cd, t, hlook, hunp, hdims⟩ := h sl (List.mem_cons_self _ _)
    obtain ⟨ts, hts, hlen, hranks⟩ := ih (fun x hx => h x (List.mem_cons_of_mem _ hx))
    refine ⟨t :: ts, ?_, by simp [hlen], ?_⟩
    · simp [unpackColumnG, hlook, hunp, hts]
    · intro x hx
      rcases List.mem_cons.mp hx with h' | h'
      · exact h' ▸ hdims
      · exact hranks x h'

theorem unpackColumnG_missing {m : List (Nat × Option ChunkData)} {itemKey k : Nat}
    (hmiss : lookupAssoc m k = none) :
    ∀ {slices : List ChunkSlice},
      (∀ sl ∈ slices, sl.chunk_key = k ∨ SliceOkG m sl) →
      (∃ sl ∈ slices, sl.chunk_key = k) →
      unpackColumnG m itemKey slices =
        some (.error (.internalError (.missingChunk k itemKey))) := by
  intro slices
  induction slices with
  | nil => rintro _ ⟨_, h, _⟩; cases h
  | cons sl rest ih =>
    intro hall hex
    by_cases hk : sl.chunk_key = k
    · simp [unpackColumnG, hk, hmiss]
    · rcases hall sl (List.mem_cons_self _ _) with h' | h'
      · exact absurd h' hk
      · obtain ⟨cd, t, hlook, hunp, _⟩ := h'
        have hex' : ∃ x ∈ rest, x.chunk_key = k := by
          obtain ⟨x, hx, hxk⟩ := hex
          rcases List.mem_cons.mp hx with h'' | h''
          · exact absurd (h'' ▸ hxk) hk
          · exact ⟨x, h'', hxk⟩
        simp [unpackColumnG, hlook, hunp,
          ih (fun x hx => hall x (List.mem_cons_of_mem _ hx)) hex']

theorem unpackColumnsG_missing {m : List (Nat × Option ChunkData)} {itemKey k : Nat}
    (hmiss : lookupAssoc m k = none) :
    ∀ {cols : List TrajectoryColumn},
      (∀ c ∈ cols, c.chunk_slices ≠ [] ∧
        ∀ sl ∈ c.chunk_slices, sl.chunk_key = k ∨ SliceOkG m sl) →
      (∃ c ∈ cols, ∃ sl ∈ c.chunk_slices, sl.chunk_key = k) →
      unpackColumnsG m itemKey cols =
        some (.error (.internalError (.missingChunk k itemKey))) := by
  intro cols
  induction cols with
  | nil => rintro _ ⟨_, h, _⟩; cases h
  | cons c rest ih =>
    intro hall hex
    by_cases hc : ∃ sl ∈ c.chunk_slices, sl.chunk_key = k
    · simp [unpackColumnsG,
        unpackColumnG_missing hmiss (hall c (List.mem_cons_self _ _)).2 hc]
    · have hok : ∀ sl ∈ c.chunk_slices, SliceOkG m sl := by
        intro sl hsl
        rcases (hall c (List.mem_cons_self _ _)).2 sl hsl with h' | h'
        · exact absurd ⟨sl, hsl, h'⟩ hc
        · exact h'
      obtain ⟨ts, hts, hlen, hranks⟩ := @unpackColumnG_all_ok m itemKey c.chunk_slices hok
      have htsne : ts ≠ [] := by
        have := (hall c (List.mem_cons_self _ _)).1
        intro h'
        exact this (List.length_eq_zero.mp (by simp [h'] at hlen; omega))
      have hex' : ∃ x ∈ rest, ∃ sl ∈ x.chunk_slices, sl.chunk_key = k := by
        obtain ⟨x, hx, hxs⟩ := hex
        rcases List.mem_cons.mp hx with h'' | h''
        · exact absurd (h'' ▸ hxs) hc
        · exact ⟨x, h'', hxs⟩
      simp [unpackColumnsG, hts, concatList_ok htsne hranks,
        ih (fun x hx => hall x (List.mem_cons_of_mem _ hx)) hex']

theorem unpackColumnL_crash {m : List (Nat × ChunkData)} {k : Nat}
    (hmiss : lookupAssoc m k = none) :
    ∀ {slices : List ChunkSlice},
      (∀ sl ∈ slices, sl.chunk_key = k ∨ SliceOkL m sl) →
      (∃ sl ∈ slices, sl.chunk_key = k) →
      unpackColumnL m slices = none := by
  intro slices
  induction slices with
  | nil => rintro _ ⟨_, h, _⟩; cases h
  | cons sl rest ih =>
    intro hall hex
    by_cases hk : sl.chunk_key = k
    · simp [unpackColumnL, hk, hmiss]
    · rcases hall sl (List.mem_cons_self _ _) with h' | h'
      · exact absurd h' hk
      · obtain ⟨cd, t, hlook, hunp, _⟩ := h'
        have hex' : ∃ x ∈ rest, x.chunk_key = k := by
          obtain ⟨x, hx, hxk⟩ := hex
          rcases List.mem_cons.mp hx with h'' | h''
          · exact absurd (h'' ▸ hxk) hk
          · exact ⟨x, h'', hxk⟩
        simp [unpackColumnL, hlook, hunp,
          ih (fun x hx => hall x (List.mem_cons_of_mem _ hx)) hex']

theorem unpackColumnL_all_ok {m : List (Nat × ChunkData)} :
    ∀ {slices : List ChunkSlice}, (∀ sl ∈ slices, SliceOkL m sl) →
      ∃ ts, unpackColumnL m slices = some (.ok ts) ∧
        ts.length = slices.length ∧ ∀ t ∈ ts, t.dims ≠ [] := by
  intro slices
  induction slices with
  | nil => exact fun _ => ⟨[], rfl, rfl, by simp⟩
  | cons sl rest ih =>
    intro h
    obtain ⟨cd, t, hlook, hunp, hdims⟩ := h sl (List.mem_cons_self _ _)
    obtain ⟨ts, hts, hlen, hranks⟩ := ih (fun x hx => h x (List.mem_cons_of_mem _ hx))
    refine ⟨t :: ts, ?_, by simp [hlen], ?_⟩
    · simp [unpackColumnL, hlook, hunp, hts]
    · intro x hx
      rcases List.mem_cons.mp hx with h' | h'
      · exact h' ▸ hdims
      · exact hranks x h'

theorem unpackColumnsL_crash {m : List (Nat × ChunkData)} {k : Nat}
    (hmiss : lookupAssoc m k = none) :
    ∀ {cols : List TrajectoryColumn},
      (∀ c ∈ cols, c.chunk_slices ≠ [] ∧
        ∀ sl ∈ c.chunk_slices, sl.chunk_key = k ∨ SliceOkL m sl) →
      (∃ c ∈ cols, ∃ sl ∈ c.chunk_slices, sl.chunk_key = k) →
      unpackColumnsL m cols = none := by
  intro cols
  induction cols with
  | nil => rintro _ ⟨_, h, _⟩; cases h
  | cons c rest ih =>
    intro hall hex
    by_cases hc : ∃ sl ∈ c.chunk_slices, sl.chunk_key = k
    · simp [unpackColumnsL,
        unpackColumnL_crash hmiss (hall c (List.mem_cons_self _ _)).2 hc]
    · have hok : ∀ sl ∈ c.chunk_slices, SliceOkL m sl := by
        intro sl hsl
        rcases (hall c (List.mem_cons_self _ _)).2 sl hsl with h' | h'
        · exact absurd ⟨sl, hsl, h'⟩ hc
        · exact h'
      obtain ⟨ts, hts, hlen, hranks⟩ := unpackColumnL_all_ok hok
      have htsne : ts ≠ [] := by
        have := (hall c (List.mem_cons_self _ _)).1
        intro h'
        exact this (List.length_eq_zero.mp (by simp [h'] at hlen; omega))
      have hex' : ∃ x ∈ rest, ∃ sl ∈ x.chunk_slices, sl.chunk_key = k := by
        obtain ⟨x, hx, hxs⟩ := hex
        rcases List.mem_cons.mp hx with h'' | h''
        · exact absurd (h'' ▸ hxs) hc
        · exact ⟨x, h'', hxs⟩
      simp [unpackColumnsL, hts, concatList_ok htsne hranks,
        ih (fun x hx => hall x (List.mem_cons_of_mem _ hx)) hex']

/-- C9 counterexample: a local `SampledItem` whose trajectory references
chunk key 42 while only chunk 7 is attached. The local assembly path does
not return the internal error the claim describes — it dereferences a null
chunk pointer (modelled as `none`). -/
theorem c9_counterexample :
    asSampleLocal ⟨⟨11, 0, ⟨[⟨[⟨42, 0, 1, 0⟩], false⟩]⟩⟩, 0, 0,
        [⟨7, [⟨[1], [.u64 0]⟩]⟩]⟩ = none := by decide

/-- C9 amended: in the remote general-trajectory path, unpacking an item
whose flat trajectory references a chunk key `k` absent from the received
chunks returns an internal error naming `k` and the item key; the local
worker's assembly path performs no missing-key check at all — it
dereferences a null chunk pointer (undefined behaviour, modelled `none`)
instead of returning an error. Both statements assume every other slice of
the trajectory unpacks cleanly (rank-≥1 tensor) and every column is
non-empty. -/
theorem c9_missing_chunk :
    (∀ (responses : List SampleStreamResponse) (first : SampleStreamResponse) (k : Nat),
      responses.head? = some first →
      lookupAssoc (buildChunkMap responses) k = none →
      (∀ c ∈ first.info.item.flat_trajectory.columns, c.chunk_slices ≠ [] ∧
        ∀ sl ∈ c.chunk_slices, sl.chunk_key = k ∨ SliceOkG (buildChunkMap responses) sl) →
      (∃ c ∈ first.info.item.flat_trajectory.columns,
        ∃ sl ∈ c.chunk_slices, sl.chunk_key = k) →
      asSampleGeneral responses =
        some (.error (.internalError (.missingChunk k first.info.item.key)))) ∧
    (∀ (si : SampledItem) (k : Nat),
      lookupAssoc (buildChunkMapLocal si.chunks) k = none →
      (∀ c ∈ si.item.flat_trajectory.columns, c.chunk_slices ≠ [] ∧
        ∀ sl ∈ c.chunk_slices, sl.chunk_key = k ∨ SliceOkL (buildChunkMapLocal si.chunks) sl) →
      (∃ c ∈ si.item.flat_trajectory.columns,
        ∃ sl ∈ c.chunk_slices, sl.chunk_key = k) →
      asSampleLocal si = none) := by
  constructor
  · intro responses first k hhead hmiss hall hex
    simp [asSampleGeneral, hhead, unpackColumnsG_missing hmiss hall hex]
  · intro si k hmiss hall hex
    simp [asSampleLocal, unpackColumnsL_crash hmiss hall hex]

/-- C9 witness: concrete instances of both conjuncts — a remote response set
missing chunk 42 yields the internal error naming 42 and item key 11; the
analogous local item crashes. -/
theorem c9_missing_chunk_witness :
    asSampleGeneral [⟨⟨⟨11, 0, ⟨[⟨[⟨42, 0, 1, 0⟩], false⟩]⟩⟩, 0, 0⟩,
        some ⟨7, [⟨[1], [.u64 0]⟩]⟩⟩] =
      some (.error (.internalError (.missingChunk 42 11))) ∧
    asSampleLocal ⟨⟨11, 0, ⟨[⟨[⟨42, 0, 1, 0⟩], false⟩]⟩⟩, 0, 0,
        [⟨7, [⟨[1], [.u64 0]⟩]⟩]⟩ = none := by
  constructor
  · exact c9_missing_chunk.1
      [⟨⟨⟨11, 0, ⟨[⟨[⟨42, 0, 1, 0⟩], false⟩]⟩⟩, 0, 0⟩, some ⟨7, [⟨[1], [.u64 0]⟩]⟩⟩]
      ⟨⟨⟨11, 0, ⟨[⟨[⟨42, 0, 1, 0⟩], false⟩]⟩⟩, 0, 0⟩, some ⟨7, [⟨[1], [.u64 0]⟩]⟩⟩
      42 rfl (by decide)
      (by
        intro c hc
        simp at hc
        subst hc
        refine ⟨by decide, ?_⟩
        intro sl hsl
        simp at hsl
        subst hsl
        exact Or.inl rfl)
      ⟨⟨[⟨42, 0, 1, 0⟩], false⟩, by simp, ⟨42, 0, 1, 0⟩, by simp, rfl⟩
  · exact c9_missing_chunk.2
      ⟨⟨11, 0, ⟨[⟨[⟨42, 0, 1, 0⟩], false⟩]⟩⟩, 0, 0, [⟨7, [⟨[1], [.u64 0]⟩]⟩]⟩
      42 (by decide)
      (by
        intro c hc
        simp at hc
        subst hc
        refine ⟨by decide, ?_⟩
        intro sl hsl
        simp at hsl
        subst hsl
        exact Or.inl rfl)
      ⟨⟨[⟨42, 0, 1, 0⟩], false⟩, by simp, ⟨42, 0, 1, 0⟩, by simp, rfl⟩

/-! ## Output validation (`Sampler::ValidateAgainstOutputSpec`) -/

/-- `Sampler::ValidationMode`. -/
inductive ValidationMode where
  | kTimestep
  | kBatchedTimestep
  | kTrajectory
deriving DecidableEq

/-- One entry of `internal::DtypesAndShapes`: a dtype and a partial shape
(`none` = unknown rank, a `none` dimension matches any size). -/
structure TensorSpec where
  dtype : DType
  shape : Option (List (Option Nat))
deriving DecidableEq

/-- `PartialTensorShape::IsCompatibleWith` against a fully known shape. -/
def shapeCompatible : Option (List (Option Nat)) → List Nat → Bool
  | none, _ => true
  | some dims, sh =>
    dims.length == sh.length &&
      (dims.zip sh).all (fun p => match p.1 with | none => true | some d => d == p.2)

/-- Body of the validation loop for flattened index `i`: in batched-timestep
mode a scalar is rejected and the leading (time) dimension is stripped
before comparison; dtype is compared strictly and the shape with
`IsCompatibleWith`. -/
def validateOne (mode : ValidationMode) (i : Nat) (spec : TensorSpec) (t : Tensor) :
    CStatus :=
  match mode with
  | .kBatchedTimestep =>
    if t.dims.length = 0 then .invalidArgument (.scalarShape i)
    else if t.dtypeOf == spec.dtype && shapeCompatible spec.shape t.dims.tail then .ok
    else .invalidArgument (.incompatible i)
  | _ =>
    if t.dtypeOf == spec.dtype && shapeCompatible spec.shape t.dims then .ok
    else .invalidArgument (.incompatible i)

/-- The loop `for (int i = 4; i < data.size(); ++i)`, run over the spec and
data tails with the flattened index carried for diagnostics. -/
def validateLoop (mode : ValidationMode) : List TensorSpec → List Tensor → Nat → CStatus
  | s :: ss, t :: ts, i =>
    match validateOne mode i s t with
    | .ok => validateLoop mode ss ts (i + 1)
    | e => e
  | _, _, _ => .ok

/-- `Sampler::ValidateAgainstOutputSpec`: no signature — everything passes;
otherwise the tensor count must equal the signature length, and every tensor
from flattened index 4 on must match its spec. -/
def validateAgainstOutputSpec (sig : Option (List TensorSpec)) (data : List Tensor)
    (mode : ValidationMode) : CStatus :=
  match sig with
  | none => .ok
  | some spec =>
    if data.length ≠ spec.length then
      .invalidArgument (.countMismatch spec.length data.length)
    else validateLoop mode (spec.drop 4) (data.drop 4) 4

/-! ## Sampler consumer surface -/

/-- Modelled from the spec: `internal::Queue` (code outside `sampler.cc`),
restricted to what a sequential execution observes: FIFO contents and the
closed flag. -/
structure SampleQueue where
  items : List Sample
  closed : Bool
deriving DecidableEq

/-- Modelled from the spec: `queue.Push` returns false iff the queue is
closed (blocking on a full queue is a liveness property outside this
model). -/
def SampleQueue.push (q : SampleQueue) (s : Sample) : Bool × SampleQueue :=
  if q.closed then (false, q) else (true, { q with items := q.items ++ [s] })

/-- `queue.Close()` (idempotent). -/
def SampleQueue.closeQ (q : SampleQueue) : SampleQueue := { q with closed := true }

/-- Outcome of `queue.Pop`: front item, failure (closed and empty), or
blocking (empty, not closed). -/
inductive PopOutcome where
  | popped (s : Sample) (q : SampleQueue)
  | closedEmpty
  | wouldBlock
deriving DecidableEq

/-- Modelled from the spec: `queue.Pop` yields the front item when one is
available and fails iff the queue is closed and empty; otherwise it
blocks. -/
def SampleQueue.pop (q : SampleQueue) : PopOutcome :=
  match q.items with
  | s :: rest => .popped s { q with items := rest }
  | [] => if q.closed then .closedEmpty else .wouldBlock

/-- The `Sampler` state a sequential execution observes: the shared queue,
the counters guarded by `mu_`, the active sample of the timestep iterator,
and the configured output signature. -/
structure SamplerState where
  queue : SampleQueue
  active_sample : Option Sample
  returned : Nat
  requested : Nat
  max_samples : Nat
  max_samples_per_stream : Nat
  closed : Bool
  worker_status : CStatus
  dtypes_and_shapes : Option (List TensorSpec)
deriving DecidableEq

/-- `Sampler::PopNextSample`: a successful pop returns the sample; on a
closed-and-empty queue return out-of-range when `returned_ == max_samples_`,
cancelled when `closed_`, else the sticky `worker_status_` (in that order).
`none` models a blocking pop. -/
def Sampler.popNextSample (st : SamplerState) :
    Option (Except CStatus Sample) × SamplerState :=
  match st.queue.pop with
  | .popped s q2 => (some (.ok s), { st with queue := q2 })
  | .closedEmpty =>
    (some (.error
      (if st.returned = st.max_samples then .outOfRange
       else if st.closed then .cancelled
       else st.worker_status)), st)
  | .wouldBlock => (none, st)

/-- `Sampler::GetNextSample`: pop, materialize as batched timesteps,
validate, then increment `returned_` and close the queue when the quota is
reached. -/
def Sampler.getNextSample (st : SamplerState) :
    Option (Except CStatus (List Tensor)) × SamplerState :=
  match Sampler.popNextSample st with
  | (none, st1) => (none, st1)
  | (some (.error e), st1) => (some (.error e), st1)
  | (some (.ok sample), st1) =>
    match sample.asBatchedTimesteps with
    | .error e => (some (.error e), st1)
    | .ok data =>
      match validateAgainstOutputSpec st1.dtypes_and_shapes data .kBatchedTimestep with
      | .ok =>
        let returned2 := st1.returned + 1
        (some (.ok data),
         { st1 with returned := returned2,
                    queue := if returned2 = st1.max_samples then st1.queue.closeQ
                             else st1.queue })
      | e => (some (.error e), st1)

/-- `Sampler::GetNextTrajectory`: pop, materialize as trajectory, validate,
then increment `returned_` and close the queue when the quota is reached. -/
def Sampler.getNextTrajectory (st : SamplerState) :
    Option (Except CStatus (List Tensor)) × SamplerState :=
  match Sampler.popNextSample st with
  | (none, st1) => (none, st1)
  | (some (.error e), st1) => (some (.error e), st1)
  | (some (.ok sample), st1) =>
    match sample.asTrajectory with
    | .error e => (some (.error e), st1)
    | .ok data =>
      match validateAgainstOutputSpec st1.dtypes_and_shapes data .kTrajectory with
      | .ok =>
        let returned2 := st1.returned + 1
        (some (.ok data),
         { st1 with returned := returned2,
                    queue := if returned2 = st1.max_samples then st1.queue.closeQ
                             else st1.queue })
      | e => (some (.error e), st1)

/-- `Sampler::MaybeSampleNext` inlined into `Sampler::GetNextTimestep`: keep
the active sample while it has timesteps left, otherwise pop the next one;
then require decomposability, emit the next row, validate it, and on
end-of-sample increment `returned_` (closing the queue at the quota). The
`Bool` in the result is `*end_of_sequence`. -/
def Sampler.getNextTimestep (st : SamplerState) :
    Option (Except CStatus (List Tensor × Bool)) × SamplerState :=
  let popped : Option (Except CStatus Sample) × SamplerState :=
    match st.active_sample with
    | some s => if !s.is_end_of_sample then (some (.ok s), st)
                else Sampler.popNextSample st
    | none => Sampler.popNextSample st
  match popped with
  | (none, st1) => (none, st1)
  | (some (.error e), st1) => (some (.error e), st1)
  | (some (.ok s), st1) =>
    let st2 := { st1 with active_sample := some s }
    if !s.is_composed_of_timesteps then
      (some (.error (.invalidArgument .notDecomposable)), st2)
    else
      let rs := s.getNextTimestepRow
      let st3 := { st2 with active_sample := some rs.2 }
      match validateAgainstOutputSpec st3.dtypes_and_shapes rs.1 .kTimestep with
      | .ok =>
        if rs.2.is_end_of_sample then
          let returned2 := st3.returned + 1
          (some (.ok (rs.1, true)),
           { st3 with returned := returned2,
                      queue := if returned2 = st3.max_samples then st3.queue.closeQ
                               else st3.queue })
        else (some (.ok (rs.1, false)), st3)
      | e => (some (.error e), st3)

/-- C1: when the sample queue is closed and empty, every consumer call that
pops a sample (`GetNextTimestep` pops only when there is no active sample or
it is exhausted) returns out-of-range if `returned == max_samples`, else
cancelled if the sampler is closed, else the sticky `worker_status` — the
conditions are checked in exactly that priority order. -/
theorem c1_pop_error_priority (st : SamplerState)
    (hempty : st.queue.items = []) (hclosed : st.queue.closed = true) :
    (Sampler.getNextSample st).1 =
      some (.error (if st.returned = st.max_samples then .outOfRange
                    else if st.closed then .cancelled
                    else st.worker_status)) ∧
    (Sampler.getNextTrajectory st).1 =
      some (.error (if st.returned = st.max_samples then .outOfRange
                    else if st.closed then .cancelled
                    else st.worker_status)) ∧
    ((st.active_sample = none ∨
        ∃ s, st.active_sample = some s ∧ s.is_end_of_sample = true) →
      (Sampler.getNextTimestep st).1 =
        some (.error (if st.returned = st.max_samples then .outOfRange
                      else if st.closed then .cancelled
                      else st.worker_status))) := by
  have hpop : st.queue.pop = .closedEmpty := by
    simp [SampleQueue.pop, hempty, hclosed]
  refine ⟨?_, ?_, ?_⟩
  · simp [Sampler.getNextSample, Sampler.popNextSample, hpop]
  · simp [Sampler.getNextTrajectory, Sampler.popNextSample, hpop]
  · rintro (hact | ⟨s, hact, hend⟩)
    · simp [Sampler.getNextTimestep, Sampler.popNextSample, hpop, hact]
    · simp [Sampler.getNextTimestep, Sampler.popNextSample, hpop, hact, hend]

/-- C1 witness: a closed empty queue with `returned < max_samples`, sampler
not closed, and a sticky internal `worker_status` — all three calls surface
the sticky status. -/
theorem c1_pop_error_priority_witness :
    (Sampler.getNextSample ⟨⟨[], true⟩, none, 0, 0, 2, 10, false,
        .internalError .batchSizeMismatch, none⟩).1 =
      some (.error (.internalError .batchSizeMismatch)) ∧
    (Sampler.getNextTrajectory ⟨⟨[], true⟩, none, 0, 0, 2, 10, false,
        .internalError .batchSizeMismatch, none⟩).1 =
      some (.error (.internalError .batchSizeMismatch)) ∧
    (Sampler.getNextTimestep ⟨⟨[], true⟩, none, 0, 0, 2, 10, false,
        .internalError .batchSizeMismatch, none⟩).1 =
      some (.error (.internalError .batchSizeMismatch)) := by
  have h := c1_pop_error_priority
    ⟨⟨[], true⟩, none, 0, 0, 2, 10, false, .internalError .batchSizeMismatch, none⟩
    rfl rfl
  refine ⟨?_, ?_, ?_⟩
  · simpa using h.1
  · simpa using h.2.1
  · simpa using h.2.2 (Or.inl rfl)

/-- C10: when output validation fails in `GetNextSample` or
`GetNextTrajectory`, the invalid-argument error is surfaced and neither the
`returned_` counter is incremented nor the queue closed by that call. -/
theorem c10_validation_no_state_change :
    (∀ (st : SamplerState) (sample : Sample) (rest : List Sample)
        (data : List Tensor) (d : ArgDetail),
      st.queue.items = sample :: rest →
      sample.asBatchedTimesteps = .ok data →
      validateAgainstOutputSpec st.dtypes_and_shapes data .kBatchedTimestep =
        .invalidArgument d →
      (Sampler.getNextSample st).1 = some (.error (.invalidArgument d)) ∧
      (Sampler.getNextSample st).2.returned = st.returned ∧
      (Sampler.getNextSample st).2.queue.closed = st.queue.closed) ∧
    (∀ (st : SamplerState) (sample : Sample) (rest : List Sample)
        (data : List Tensor) (d : ArgDetail),
      st.queue.items = sample :: rest →
      sample.asTrajectory = .ok data →
      validateAgainstOutputSpec st.dtypes_and_shapes data .kTrajectory =
        .invalidArgument d →
      (Sampler.getNextTrajectory st).1 = some (.error (.invalidArgument d)) ∧
      (Sampler.getNextTrajectory st).2.returned = st.returned ∧
      (Sampler.getNextTrajectory st).2.queue.closed = st.queue.closed) := by
  constructor
  · intro st sample rest data d hq hmat hval
    have hpop : st.queue.pop = .popped sample { st.queue with items := rest } := by
      simp [SampleQueue.pop, hq]
    simp [Sampler.getNextSample, Sampler.popNextSample, hpop, hmat, hval]
  · intro st sample rest data d hq hmat hval
    have hpop : st.queue.pop = .popped sample { st.queue with items := rest } := by
      simp [SampleQueue.pop, hq]
    simp [Sampler.getNextTrajectory, Sampler.popNextSample, hpop, hmat, hval]

/-- C10 witness: an empty configured signature makes validation fail with a
count mismatch on a one-column sample; the call surfaces invalid-argument,
`returned` stays 0 and the queue stays open. -/
theorem c10_validation_no_state_change_witness :
    ((Sampler.getNextSample ⟨⟨[⟨1, 2, 3, 4, [[⟨[1], [.u64 9]⟩]], [false], 0, false⟩], false⟩,
        none, 0, 0, 5, 10, false, .ok, some []⟩).1 =
      some (.error (.invalidArgument (.countMismatch 0 5))) ∧
     (Sampler.getNextSample ⟨⟨[⟨1, 2, 3, 4, [[⟨[1], [.u64 9]⟩]], [false], 0, false⟩], false⟩,
        none, 0, 0, 5, 10, false, .ok, some []⟩).2.returned = 0 ∧
     (Sampler.getNextSample ⟨⟨[⟨1, 2, 3, 4, [[⟨[1], [.u64 9]⟩]], [false], 0, false⟩], false⟩,
        none, 0, 0, 5, 10, false, .ok, some []⟩).2.queue.closed = false) ∧
    ((Sampler.getNextTrajectory ⟨⟨[⟨1, 2, 3, 4, [[⟨[1], [.u64 9]⟩]], [false], 0, false⟩], false⟩,
        none, 0, 0, 5, 10, false, .ok, some []⟩).1 =
      some (.error (.invalidArgument (.countMismatch 0 5))) ∧
     (Sampler.getNextTrajectory ⟨⟨[⟨1, 2, 3, 4, [[⟨[1], [.u64 9]⟩]], [false], 0, false⟩], false⟩,
        none, 0, 0, 5, 10, false, .ok, some []⟩).2.returned = 0 ∧
     (Sampler.getNextTrajectory ⟨⟨[⟨1, 2, 3, 4, [[⟨[1], [.u64 9]⟩]], [false], 0, false⟩], false⟩,
        none, 0, 0, 5, 10, false, .ok, some []⟩).2.queue.closed = false) := by
  constructor
  · exact c10_validation_no_state_change.1
      ⟨⟨[⟨1, 2, 3, 4, [[⟨[1], [.u64 9]⟩]], [false], 0, false⟩], false⟩,
        none, 0, 0, 5, 10, false, .ok, some []⟩
      ⟨1, 2, 3, 4, [[⟨[1], [.u64 9]⟩]], [false], 0, false⟩ []
      [⟨[1], [.u64 1]⟩, ⟨[1], [.f64 2]⟩, ⟨[1], [.i64 3]⟩, ⟨[1], [.f64 4]⟩,
        ⟨[1], [.u64 9]⟩]
      (.countMismatch 0 5) rfl (by decide) (by decide)
  · exact c10_validation_no_state_change.2
      ⟨⟨[⟨1, 2, 3, 4, [[⟨[1], [.u64 9]⟩]], [false], 0, false⟩], false⟩,
        none, 0, 0, 5, 10, false, .ok, some []⟩
      ⟨1, 2, 3, 4, [[⟨[1], [.u64 9]⟩]], [false], 0, false⟩ []
      [⟨[], [.u64 1]⟩, ⟨[], [.f64 2]⟩, ⟨[], [.i64 3]⟩, ⟨[], [.f64 4]⟩,
        ⟨[1], [.u64 9]⟩]
      (.countMismatch 0 5) rfl (by decide) (by decide)

/-! ## Workers (`GrpcSamplerWorker`, `LocalSamplerWorker`, `Sampler::RunWorker`) -/

/-- One observable event on a gRPC stream: a successful `Write`, a successful
`Read` delivering a response, or a failure. Any other observation (including
an exhausted event list) makes the stream operation fail, after which
`stream->Finish()` yields the terminal status carried alongside the
events. -/
inductive StreamEv where
  | writeOk
  | readOk (r : SampleStreamResponse)
  | fail
deriving DecidableEq

/-- The read loop of `GrpcSamplerWorker::FetchSamples`: read responses until
`SampleIsDone`; a failed read aborts. Returns the collected responses
(`none` on read failure) and the remaining stream events. -/
def readSampleLoop : List StreamEv → List SampleStreamResponse →
    Option (List SampleStreamResponse) × List StreamEv
  | evs, acc =>
    if SampleIsDone acc then (some acc, evs)
    else
      match evs with
      | .readOk r :: rest => readSampleLoop rest (acc ++ [r])
      | other => (none, other)

theorem readSampleLoop_evs_le :
    ∀ (evs : List StreamEv) (acc : List SampleStreamResponse),
      (readSampleLoop evs acc).2.length ≤ evs.length := by
  intro evs
  induction evs with
  | nil =>
    intro acc
    rw [readSampleLoop.eq_def]
    by_cases hd : SampleIsDone acc = true <;> simp [hd]
  | cons e rest ih =>
    intro acc
    rw [readSampleLoop.eq_def]
    by_cases hd : SampleIsDone acc = true
    · simp [hd]
    · simp only [hd, if_false]
      cases e with
      | readOk r =>
        exact le_trans (ih (acc ++ [r])) (Nat.le_succ _)
      | writeOk => exact le_refl _
      | fail => exact le_refl _

/-- Result of the per-request sample loop of
`GrpcSamplerWorker::FetchSamples`. `early` is the status of an early return
(stream failure — filled with the finish status —, assembly error, or
refused push); `crashed` marks undefined behaviour inside assembly. -/
structure GrpcIterOut where
  produced : Nat
  queue : SampleQueue
  evs : List StreamEv
  early : Option CStatus
  crashed : Bool
deriving DecidableEq

/-- The `for (int64_t i = 0; i < request.num_samples(); i++)` loop of
`GrpcSamplerWorker::FetchSamples`: read one full sample, assemble it
(`AsSample`), push it, and count it. -/
def grpcSampleLoop (finish : CStatus) :
    Nat → SampleQueue → List StreamEv → Nat → GrpcIterOut
  | 0, queue, evs, produced => ⟨produced, queue, evs, none, false⟩
  | k + 1, queue, evs, produced =>
    match readSampleLoop evs [] with
    | (none, evs2) => ⟨produced, queue, evs2, some finish, false⟩
    | (some responses, evs2) =>
      match asSampleRemote responses with
      | none => ⟨produced, queue, evs2, none, true⟩
      | some (.error e) => ⟨produced, queue, evs2, some e, false⟩
      | some (.ok sample) =>
        match queue.push sample with
        | (false, q2) => ⟨produced, q2, evs2, some .cancelled, false⟩
        | (true, q2) => grpcSampleLoop finish k q2 evs2 (produced + 1)

theorem grpcSampleLoop_evs_le (finish : CStatus) :
    ∀ (k : Nat) (queue : SampleQueue) (evs : List StreamEv) (produced : Nat),
      (grpcSampleLoop finish k queue evs produced).evs.length ≤ evs.length := by
  intro k
  induction k with
  | zero => intro queue evs produced; exact le_refl _
  | succ k ih =>
    intro queue evs produced
    have hread := readSampleLoop_evs_le evs []
    rw [grpcSampleLoop]
    split <;> rename_i heq
    · rw [heq] at hread; exact hread
    · rw [heq] at hread
      split
      · exact hread
      · exact hread
      · split
        · exact hread
        · rename_i sample q2 hpush
          exact le_trans (ih q2 _ (produced + 1)) hread

theorem grpcSampleLoop_count (finish : CStatus) :
    ∀ (k : Nat) (queue : SampleQueue) (evs : List StreamEv) (produced : Nat),
      (grpcSampleLoop finish k queue evs produced).queue.items.length + produced =
        queue.items.length + (grpcSampleLoop finish k queue evs produced).produced ∧
      produced ≤ (grpcSampleLoop finish k queue evs produced).produced ∧
      (grpcSampleLoop finish k queue evs produced).produced ≤ produced + k := by
  intro k
  induction k with
  | zero => intro queue evs produced; exact ⟨by simp [grpcSampleLoop], by simp [grpcSampleLoop], by simp [grpcSampleLoop]⟩
  | succ k ih =>
    intro queue evs produced
    rw [grpcSampleLoop]
    split
    · rename_i evs2 heq
      exact ⟨by simp, by simp, by simp⟩
    · rename_i responses evs2 heq
      split
      · exact ⟨by simp, by simp, by simp⟩
      · rename_i e heq2
        exact ⟨by simp, by simp, by simp⟩
      · rename_i sample heq2
        split
        · rename_i q2 hpush
          have hq2 : q2.items.length = queue.items.length := by
            by_cases hcl : queue.closed
            · simp only [SampleQueue.push, hcl, if_true, Prod.mk.injEq] at hpush
              rw [← hpush.2]
            · simp [SampleQueue.push, hcl] at hpush
          exact ⟨by simp [hq2], by simp, by simp⟩
        · rename_i q2 hpush
          have hq2 : q2.items.length = queue.items.length + 1 := by
            by_cases hcl : queue.closed
            · simp [SampleQueue.push, hcl] at hpush
            · simp only [SampleQueue.push, hcl, if_false, Bool.false_eq_true,
                Prod.mk.injEq] at hpush
              rw [← hpush.2]
              simp
          obtain ⟨h1, h2, h3⟩ := ih q2 evs2 (produced + 1)
          exact ⟨by omega, by omega, by omega⟩

/-- Result of a worker's `FetchSamples` call: produced count, final status,
and the queue state afterwards. -/
structure FetchResult where
  produced : Nat
  status : CStatus
  queue : SampleQueue
deriving DecidableEq

/-- Outer request loop of `GrpcSamplerWorker::FetchSamples`: while
`produced < n`, write one request for `min(samples_per_request,
n − produced)` samples (a failed write ends the call with the stream's
finish status), then run the per-request sample loop. On normal exit the
`num_samples_returned != num_samples` check raises an internal error.
`none` marks undefined behaviour inside assembly. -/
def fetchGrpcLoop (spr : Nat) (finish : CStatus) (n : Nat) (queue : SampleQueue)
    (evs : List StreamEv) (produced : Nat) : Option FetchResult :=
  if produced < n then
    match evs with
    | .writeOk :: rest =>
      if (grpcSampleLoop finish (min spr (n - produced)) queue rest produced).crashed = true
      then none
      else
        match (grpcSampleLoop finish (min spr (n - produced)) queue rest produced).early with
        | some s =>
          some ⟨(grpcSampleLoop finish (min spr (n - produced)) queue rest produced).produced,
                s, (grpcSampleLoop finish (min spr (n - produced)) queue rest produced).queue⟩
        | none =>
          fetchGrpcLoop spr finish n
            (grpcSampleLoop finish (min spr (n - produced)) queue rest produced).queue
            (grpcSampleLoop finish (min spr (n - produced)) queue rest produced).evs
            (grpcSampleLoop finish (min spr (n - produced)) queue rest produced).produced
    | _ => some ⟨produced, finish, queue⟩
  else if produced ≠ n then some ⟨produced, .internalError .producedMismatch, queue⟩
  else some ⟨produced, .ok, queue⟩
termination_by evs.length
decreasing_by
  exact Nat.lt_succ_of_le (grpcSampleLoop_evs_le _ _ _ _ _)

/-- `GrpcSamplerWorker::FetchSamples`: a cancelled worker returns
`(0, CANCELLED)` before opening a stream; otherwise run the request loop
from `produced = 0`. -/
def fetchSamplesGrpc (spr : Nat) (workerClosed : Bool) (queue : SampleQueue)
    (n : Nat) (finish : CStatus) (evs : List StreamEv) : Option FetchResult :=
  if workerClosed then some ⟨0, .cancelled, queue⟩
  else fetchGrpcLoop spr finish n queue evs 0

theorem fetchGrpcLoop_count (spr : Nat) (finish : CStatus) (n : Nat) :
    ∀ (evs : List StreamEv) (queue : SampleQueue) (produced : Nat) (r : FetchResult),
      fetchGrpcLoop spr finish n queue evs produced = some r →
      r.queue.items.length + produced = queue.items.length + r.produced ∧
      produced ≤ r.produced ∧ r.produced ≤ max produced n := by
  suffices H : ∀ (L : Nat) (evs : List StreamEv), evs.length ≤ L →
      ∀ (queue : SampleQueue) (produced : Nat) (r : FetchResult),
        fetchGrpcLoop spr finish n queue evs produced = some r →
        r.queue.items.length + produced = queue.items.length + r.produced ∧
        produced ≤ r.produced ∧ r.produced ≤ max produced n by
    intro evs queue produced r h
    exact H evs.length evs (le_refl _) queue produced r h
  intro L
  induction L with
  | zero =>
    intro evs hlen queue produced r h
    have hnil : evs = [] := List.length_eq_zero.mp (Nat.le_zero.mp hlen)
    subst hnil
    rw [fetchGrpcLoop.eq_def] at h
    by_cases hlt : produced < n
    · rw [if_pos hlt] at h
      cases h
      exact ⟨by simp, by simp, by simp [le_max_left]⟩
    · rw [if_neg hlt] at h
      by_cases hne : produced ≠ n
      · rw [if_pos hne] at h
        cases h
        exact ⟨by simp, by simp, by simp [le_max_left]⟩
      · rw [if_neg hne] at h
        cases h
        exact ⟨by simp, by simp, by simp [le_max_left]⟩
  | succ L ih =>
    intro evs hlen queue produced r h
    rw [fetchGrpcLoop.eq_def] at h
    by_cases hlt : produced < n
    · rw [if_pos hlt] at h
      cases evs with
      | nil =>
        cases h
        exact ⟨by simp, by simp, by simp [le_max_left]⟩
      | cons e rest =>
        cases e with
        | readOk x =>
          cases h
          exact ⟨by simp, by simp, by simp [le_max_left]⟩
        | fail =>
          cases h
          exact ⟨by simp, by simp, by simp [le_max_left]⟩
        | writeOk =>
          simp only [] at h
          obtain ⟨hcnt, hmono, hbound⟩ :=
            grpcSampleLoop_count finish (min spr (n - produced)) queue rest produced
          have hevs :=
            grpcSampleLoop_evs_le finish (min spr (n - produced)) queue rest produced
          have hrest : rest.length ≤ L := by simpa using Nat.le_of_succ_le_succ hlen
          by_cases hcr :
            (grpcSampleLoop finish (min spr (n - produced)) queue rest produced).crashed = true
          · rw [if_pos hcr] at h
            cases h
          · rw [if_neg hcr] at h
            cases he :
              (grpcSampleLoop finish (min spr (n - produced)) queue rest produced).early with
            | some s =>
              rw [he] at h
              cases h
              refine ⟨by simp; omega, by simp; omega, by simp; omega⟩
            | none =>
              rw [he] at h
              have hlen2 :
                  (grpcSampleLoop finish (min spr (n - produced))
                    queue rest produced).evs.length ≤ L := by omega
              obtain ⟨h1, h2, h3⟩ := ih _ hlen2 _ _ r h
              exact ⟨by omega, by omega, by omega⟩
    · rw [if_neg hlt] at h
      by_cases hne : produced ≠ n
      · rw [if_pos hne] at h
        cases h
        exact ⟨by simp, by simp, by simp [le_max_left]⟩
      · rw [if_neg hne] at h
        cases h
        exact ⟨by simp, by simp, by simp [le_max_left]⟩

theorem fetchSamplesGrpc_count (spr : Nat) (workerClosed : Bool)
    (queue : SampleQueue) (n : Nat) (finish : CStatus) (evs : List StreamEv)
    (r : FetchResult) (h : fetchSamplesGrpc spr workerClosed queue n finish evs = some r) :
    r.queue.items.length = queue.items.length + r.produced ∧ r.produced ≤ n := by
  by_cases hc : workerClosed
  · simp only [fetchSamplesGrpc, hc, if_true] at h
    cases h
    simp
  · simp only [fetchSamplesGrpc, hc, if_false, Bool.false_eq_true] at h
    obtain ⟨h1, h2, h3⟩ := fetchGrpcLoop_count spr finish n evs queue 0 r h
    refine ⟨by omega, by simpa using h3⟩

/-- One iteration of the local worker's environment as observed under its
mutex and from the table: the `closed_` flag read at the top of the loop,
the wall clock at the deadline check, and the result of the
`SampleFlexibleBatch` call. -/
structure LocalEv where
  closedObs : Bool
  now : Nat
  status : CStatus
  items : List SampledItem
deriving DecidableEq

/-- The `for (const auto& item : items)` push loop of
`LocalSamplerWorker::FetchSamples`: assemble each item (the last component
flags undefined behaviour inside assembly), push it, count it. The third
component is the early-return status (assembly error or refused push). -/
def localPushItems : SampleQueue → Nat → List SampledItem →
    SampleQueue × Nat × Option CStatus × Bool
  | queue, produced, [] => (queue, produced, none, false)
  | queue, produced, item :: rest =>
    match asSampleLocal item with
    | none => (queue, produced, none, true)
    | some (.error e) => (queue, produced, some e, false)
    | some (.ok sample) =>
      match queue.push sample with
      | (false, q2) => (q2, produced, some .cancelled, false)
      | (true, q2) => localPushItems q2 (produced + 1) rest

theorem localPushItems_count :
    ∀ (items : List SampledItem) (queue : SampleQueue) (produced : Nat),
      (localPushItems queue produced items).1.items.length + produced =
        queue.items.length + (localPushItems queue produced items).2.1 := by
  intro items
  induction items with
  | nil => intro queue produced; simp [localPushItems]
  | cons item rest ih =>
    intro queue produced
    rw [localPushItems]
    split
    · simp
    · simp
    · rename_i sample heq
      split
      · rename_i q2 hpush
        have hq2 : q2.items.length = queue.items.length := by
          by_cases hcl : queue.closed
          · simp only [SampleQueue.push, hcl, if_true, Prod.mk.injEq] at hpush
            rw [← hpush.2]
          · simp [SampleQueue.push, hcl] at hpush
        simp [hq2]
      · rename_i q2 hpush
        have hq2 : q2.items.length = queue.items.length + 1 := by
          by_cases hcl : queue.closed
          · simp [SampleQueue.push, hcl] at hpush
          · simp only [SampleQueue.push, hcl, if_false, Bool.false_eq_true,
              Prod.mk.injEq] at hpush
            rw [← hpush.2]
            simp
        have := ih q2 (produced + 1)
        omega

/-- `LocalSamplerWorker::FetchSamples`: while `produced < n`, observe
`closed_` (returning `{0, CANCELLED}` — the count is hard-coded to 0 in the
C++ even when earlier iterations already pushed samples), call
`SampleFlexibleBatch` with batch size `min(flexible_batch_size,
n − produced)` and timeout `min(final_deadline, now + 3s) − now` (the
script's `items`/`status` stand for the call's result), treat
deadline-exceeded before `final_deadline` as a wake-up, surface any other
error with the running count, and otherwise assemble and push each returned
item. On exit the `num_samples_returned != num_samples` check raises an
internal error. `none` models an exhausted environment script (the call
still blocked) or a crash inside assembly. -/
def fetchLocalLoop (fbs : Nat) (finalDeadline : Nat) (n : Nat) :
    SampleQueue → List LocalEv → Nat → Option FetchResult
  | queue, [], produced =>
    if produced < n then none
    else if produced ≠ n then some ⟨produced, .internalError .producedMismatch, queue⟩
    else some ⟨produced, .ok, queue⟩
  | queue, ev :: rest, produced =>
    if produced < n then
      if ev.closedObs then some ⟨0, .cancelled, queue⟩
      else if ev.status = .deadlineExceeded ∧ ev.now < finalDeadline then
        fetchLocalLoop fbs finalDeadline n queue rest produced
      else if ev.status.isOk = false then some ⟨produced, ev.status, queue⟩
      else
        match localPushItems queue produced ev.items with
        | (_, _, _, true) => none
        | (q2, p2, some e, false) => some ⟨p2, e, q2⟩
        | (q2, p2, none, false) => fetchLocalLoop fbs finalDeadline n q2 rest p2
    else if produced ≠ n then some ⟨produced, .internalError .producedMismatch, queue⟩
    else some ⟨produced, .ok, queue⟩

/-- `LocalSamplerWorker::FetchSamples` from a fresh call (`produced = 0`). -/
def fetchSamplesLocal (fbs : Nat) (finalDeadline : Nat) (queue : SampleQueue)
    (n : Nat) (evs : List LocalEv) : Option FetchResult :=
  fetchLocalLoop fbs finalDeadline n queue evs 0

theorem fetchLocalLoop_count (fbs finalDeadline n : Nat) :
    ∀ (evs : List LocalEv) (queue : SampleQueue) (produced : Nat) (r : FetchResult),
      (∀ ev ∈ evs, ev.closedObs = false) →
      fetchLocalLoop fbs finalDeadline n queue evs produced = some r →
      r.queue.items.length + produced = queue.items.length + r.produced := by
  intro evs
  induction evs with
  | nil =>
    intro queue produced r hcl h
    rw [fetchLocalLoop] at h
    by_cases hlt : produced < n
    · rw [if_pos hlt] at h; cases h
    · rw [if_neg hlt] at h
      by_cases hne : produced ≠ n
      · rw [if_pos hne] at h; cases h; simp
      · rw [if_neg hne] at h; cases h; simp
  | cons ev rest ih =>
    intro queue produced r hcl h
    rw [fetchLocalLoop] at h
    by_cases hlt : produced < n
    · rw [if_pos hlt] at h
      rw [hcl ev (List.mem_cons_self _ _)] at h
      rw [if_neg (by simp)] at h
      by_cases hwake : ev.status = .deadlineExceeded ∧ ev.now < finalDeadline
      · rw [if_pos hwake] at h
        exact ih queue produced r (fun x hx => hcl x (List.mem_cons_of_mem _ hx)) h
      · rw [if_neg hwake] at h
        by_cases herr : ev.status.isOk = false
        · rw [if_pos herr] at h
          cases h
          simp
        · rw [if_neg herr] at h
          have hpush := localPushItems_count ev.items queue produced
          split at h
          · cases h
          · rename_i q2 p2 e heq
            cases h
            rw [heq] at hpush
            simp only [] at hpush
            simp
            omega
          · rename_i q2 p2 heq
            rw [heq] at hpush
            simp only [] at hpush
            have := ih q2 p2 r (fun x hx => hcl x (List.mem_cons_of_mem _ hx)) h
            omega
    · rw [if_neg hlt] at h
      by_cases hne : produced ≠ n
      · rw [if_pos hne] at h; cases h; simp
      · rw [if_neg hne] at h; cases h; simp

/-! ## `Sampler::RunWorker` accounting and status handling -/

/-- `Sampler::should_stop_workers()`. -/
def Sampler.should_stop_workers (st : SamplerState) : Bool :=
  st.closed || st.returned == st.max_samples || !st.worker_status.isOk

/-- The post-fetch accounting of one `Sampler::RunWorker` iteration: refund
`requested_` by the undelivered part of the quota, adopt the queue state the
fetch left behind, and — only when the sticky status is still OK and the
fetch status is a non-transient (non-UNAVAILABLE) error — store the status,
close the queue and stop the worker (the returned `Bool` is "the worker
thread returns"). -/
def Sampler.updateOnFetchResult (st : SamplerState) (q produced : Nat)
    (status : CStatus) (queueAfter : SampleQueue) : SamplerState × Bool :=
  let st2 := { st with requested := st.requested - (q - produced), queue := queueAfter }
  if st2.worker_status.isOk && !status.isOk && !(status == .unavailable) then
    ({ st2 with worker_status := status, queue := st2.queue.closeQ }, true)
  else (st2, false)

/-- One iteration of `Sampler::RunWorker` against a gRPC worker: exit when
`should_stop_workers`; `none` models a blocked wait on the trigger
condition (`requested_ < max_samples_` not yet true) or a crash inside the
fetch. Otherwise take the quota
`min(max_samples_per_stream, max_samples − requested)`, fetch, and run the
post-fetch accounting. -/
def Sampler.runWorkerIterationGrpc (st : SamplerState) (spr : Nat)
    (workerClosed : Bool) (finish : CStatus) (evs : List StreamEv) :
    Option (SamplerState × Bool) :=
  if Sampler.should_stop_workers st then some (st, true)
  else if st.max_samples ≤ st.requested then none
  else
    match fetchSamplesGrpc spr workerClosed st.queue
        (min st.max_samples_per_stream (st.max_samples - st.requested)) finish evs with
    | none => none
    | some r =>
      some (Sampler.updateOnFetchResult
        { st with requested :=
            st.requested + min st.max_samples_per_stream (st.max_samples - st.requested) }
        (min st.max_samples_per_stream (st.max_samples - st.requested))
        r.produced r.status r.queue)

/-- C3: an UNAVAILABLE fetch status never touches the sticky
`worker_status_` and lets the worker loop continue; any other non-OK status,
when `worker_status_` is still OK, is stored, closes the queue and stops the
worker; once `worker_status_` is non-OK it is never overwritten and
`should_stop_workers` holds, so every worker exits at the top of its
loop. -/
theorem c3_transient_vs_fatal :
    (∀ (st : SamplerState) (q produced : Nat) (queueAfter : SampleQueue),
      (Sampler.updateOnFetchResult st q produced .unavailable queueAfter).1.worker_status
        = st.worker_status ∧
      (Sampler.updateOnFetchResult st q produced .unavailable queueAfter).2 = false) ∧
    (∀ (st : SamplerState) (q produced : Nat) (status : CStatus)
        (queueAfter : SampleQueue),
      st.worker_status = .ok → status.isOk = false → status ≠ .unavailable →
      (Sampler.updateOnFetchResult st q produced status queueAfter).1.worker_status
        = status ∧
      (Sampler.updateOnFetchResult st q produced status queueAfter).1.queue.closed
        = true ∧
      (Sampler.updateOnFetchResult st q produced status queueAfter).2 = true) ∧
    (∀ (st : SamplerState) (q produced : Nat) (status : CStatus)
        (queueAfter : SampleQueue),
      st.worker_status.isOk = false →
      (Sampler.updateOnFetchResult st q produced status queueAfter).1.worker_status
        = st.worker_status ∧
      Sampler.should_stop_workers st = true) := by
  refine ⟨?_, ?_, ?_⟩
  · intro st q produced queueAfter
    constructor <;> simp [Sampler.updateOnFetchResult]
  · intro st q produced status queueAfter hok herr hnav
    have hbeq : (status == CStatus.unavailable) = false := by
      simpa using hnav
    refine ⟨?_, ?_, ?_⟩ <;>
      simp [Sampler.updateOnFetchResult, hok, herr, hbeq, SampleQueue.closeQ,
        show CStatus.ok.isOk = true from rfl]
  · intro st q produced status queueAfter hbad
    refine ⟨?_, ?_⟩
    · simp [Sampler.updateOnFetchResult, hbad]
    · simp [Sampler.should_stop_workers, hbad]

/-- C3 witness: a concrete state with an OK sticky status — UNAVAILABLE is
dropped, an internal error is stored, closes the queue and stops the
worker; a state with a sticky error keeps it and stops workers. -/
theorem c3_transient_vs_fatal_witness :
    ((Sampler.updateOnFetchResult ⟨⟨[], false⟩, none, 0, 4, 10, 5, false, .ok, none⟩
        4 2 .unavailable ⟨[], false⟩).1.worker_status = .ok ∧
     (Sampler.updateOnFetchResult ⟨⟨[], false⟩, none, 0, 4, 10, 5, false, .ok, none⟩
        4 2 .unavailable ⟨[], false⟩).2 = false) ∧
    ((Sampler.updateOnFetchResult ⟨⟨[], false⟩, none, 0, 4, 10, 5, false, .ok, none⟩
        4 2 (.internalError .batchSizeMismatch) ⟨[], false⟩).1.worker_status
        = .internalError .batchSizeMismatch ∧
     (Sampler.updateOnFetchResult ⟨⟨[], false⟩, none, 0, 4, 10, 5, false, .ok, none⟩
        4 2 (.internalError .batchSizeMismatch) ⟨[], false⟩).1.queue.closed = true ∧
     (Sampler.updateOnFetchResult ⟨⟨[], false⟩, none, 0, 4, 10, 5, false, .ok, none⟩
        4 2 (.internalError .batchSizeMismatch) ⟨[], false⟩).2 = true) ∧
    ((Sampler.updateOnFetchResult ⟨⟨[], false⟩, none, 0, 4, 10, 5, false,
        .dataLoss, none⟩ 4 2 .cancelled ⟨[], false⟩).1.worker_status = .dataLoss ∧
     Sampler.should_stop_workers ⟨⟨[], false⟩, none, 0, 4, 10, 5, false,
        .dataLoss, none⟩ = true) :=
  ⟨c3_transient_vs_fatal.1 ⟨⟨[], false⟩, none, 0, 4, 10, 5, false, .ok, none⟩
      4 2 ⟨[], false⟩,
   c3_transient_vs_fatal.2.1 ⟨⟨[], false⟩, none, 0, 4, 10, 5, false, .ok, none⟩
      4 2 (.internalError .batchSizeMismatch) ⟨[], false⟩ rfl rfl (by decide),
   c3_transient_vs_fatal.2.2 ⟨⟨[], false⟩, none, 0, 4, 10, 5, false, .dataLoss, none⟩
      4 2 .cancelled ⟨[], false⟩ rfl⟩

/-- C2 counterexample: a local `FetchSamples` call quota 2 whose first table
batch delivers one sample (pushed to the queue) and whose second loop
iteration observes cancellation: the call returns `{0, CANCELLED}` although
one sample was pushed — produced (0) differs from the number of samples
pushed (1), so the `requested` refund over-counts and the claimed invariant
fails for that iteration. -/
theorem c2_counterexample :
    (fetchSamplesLocal 1 10 ⟨[], false⟩ 2
        [⟨false, 0, .ok, [⟨⟨11, 0, ⟨[⟨[⟨7, 0, 1, 0⟩], false⟩]⟩⟩, 0, 0,
            [⟨7, [⟨[1], [.u64 5]⟩]⟩]⟩]⟩,
         ⟨true, 3, .ok, []⟩]).map
      (fun r => (r.produced, r.status, r.queue.items.length)) =
      some (0, .cancelled, 1) := by decide

/-- C2 amended: a gRPC `FetchSamples` call always reports `produced` equal
to the number of samples it pushed, and `produced ≤ quota`; a local call
does so whenever it never observes cancellation mid-call (otherwise it
reports 0); consequently, with a gRPC worker, a `RunWorker` iteration —
`requested += quota` then `requested −= quota − produced` — preserves the
invariant `requested − returned == queue.size` (no samples in flight at
iteration boundaries). -/
theorem c2_produced_accounting :
    (∀ (spr : Nat) (workerClosed : Bool) (queue : SampleQueue) (n : Nat)
        (finish : CStatus) (evs : List StreamEv) (r : FetchResult),
      fetchSamplesGrpc spr workerClosed queue n finish evs = some r →
      r.queue.items.length = queue.items.length + r.produced ∧ r.produced ≤ n) ∧
    (∀ (fbs finalDeadline : Nat) (queue : SampleQueue) (n : Nat)
        (evs : List LocalEv) (r : FetchResult),
      (∀ ev ∈ evs, ev.closedObs = false) →
      fetchSamplesLocal fbs finalDeadline queue n evs = some r →
      r.queue.items.length = queue.items.length + r.produced) ∧
    (∀ (st : SamplerState) (spr : Nat) (workerClosed : Bool) (finish : CStatus)
        (evs : List StreamEv) (st2 : SamplerState) (b : Bool),
      st.requested = st.returned + st.queue.items.length →
      Sampler.runWorkerIterationGrpc st spr workerClosed finish evs = some (st2, b) →
      st2.requested = st2.returned + st2.queue.items.length) := by
  refine ⟨?_, ?_, ?_⟩
  · intro spr workerClosed queue n finish evs r h
    exact fetchSamplesGrpc_count spr workerClosed queue n finish evs r h
  · intro fbs finalDeadline queue n evs r hcl h
    have := fetchLocalLoop_count fbs finalDeadline n evs queue 0 r hcl h
    omega
  · intro st spr workerClosed finish evs st2 b hinv hrun
    rw [Sampler.runWorkerIterationGrpc] at hrun
    by_cases hstop : Sampler.should_stop_workers st = true
    · rw [if_pos hstop] at hrun
      cases hrun
      exact hinv
    · rw [if_neg hstop] at hrun
      by_cases hblock : st.max_samples ≤ st.requested
      · rw [if_pos hblock] at hrun
        cases hrun
      · rw [if_neg hblock] at hrun
        cases hfetch : fetchSamplesGrpc spr workerClosed st.queue
            (min st.max_samples_per_stream (st.max_samples - st.requested))
            finish evs with
        | none => rw [hfetch] at hrun; cases hrun
        | some r =>
          rw [hfetch] at hrun
          obtain ⟨hcnt, hbound⟩ :=
            fetchSamplesGrpc_count spr workerClosed st.queue
              (min st.max_samples_per_stream (st.max_samples - st.requested))
              finish evs r hfetch
          simp only [Option.some.injEq] at hrun
          rw [Sampler.updateOnFetchResult] at hrun
          split at hrun
          · injection hrun with h1 h2
            subst h1
            simp [SampleQueue.closeQ]
            omega
          · injection hrun with h1 h2
            subst h1
            simp
            omega

/-- C2 witness: a gRPC call with an immediately failing stream reports 0
produced and leaves the queue unchanged; the count equation and quota bound
follow from the amended theorem. -/
theorem c2_produced_accounting_witness :
    fetchSamplesGrpc 1 true ⟨[], false⟩ 3 .unavailable [] =
      some ⟨0, .cancelled, ⟨[], false⟩⟩ ∧
    ((⟨0, .cancelled, ⟨[], false⟩⟩ : FetchResult).queue.items.length =
      (⟨[], false⟩ : SampleQueue).items.length +
        (⟨0, .cancelled, ⟨[], false⟩⟩ : FetchResult).produced ∧
     (⟨0, .cancelled, ⟨[], false⟩⟩ : FetchResult).produced ≤ 3) :=
  ⟨by decide, c2_produced_accounting.1 1 true ⟨[], false⟩ 3 .unavailable []
      ⟨0, .cancelled, ⟨[], false⟩⟩ (by decide)⟩

end Reverb
